import Mathlib

/-!
Verification of the per-turn move-decision core of the BotLi repository
(`lichess_game.py`), as a shallow embedding in Lean 4.

Pure pieces of the Python class `Lichess_Game` are embedded as Lean
functions; external collaborators (the chess library's board oracle, the
remote APIs, the tablebase readers, the random choice) are abstracted as
explicit inputs.  Machine integers are `Int`/`Nat` (none of the involved
arithmetic can overflow in Python).  Fallible code returns `Option`.
-/

namespace BotLi

/-- Embeds `Lichess_Game._value_to_wdl` (lichess_game.py lines 522-534):
the 5-way outcome classifier applied to a signed distance metric and the
halfmove clock. -/
def value_to_wdl (value : Int) (halfmove_clock : Int) : Int :=
  if value > 0 then
    if value + halfmove_clock ≤ 100 then 2 else 1
  else if value < 0 then
    if value - halfmove_clock ≥ -100 then -2 else -1
  else 0

/-- One legal move of the tablebase selectors, already scored: its outcome
class `wdl`, the distance `dist` used for comparison, and the distance
`real` reported on return (for Gaviota the two coincide). -/
structure ScoredMove where
  move : Nat
  wdl : Int
  dist : Int
  real : Int
deriving DecidableEq

/-- The mutable best-so-far state of the selector loops in
`_make_gaviota_move` and `_make_syzygy_move`: `best_moves`, `best_wdl`,
`best_dtm`/`best_dtz` and (Syzygy only) `best_real_dtz`. -/
structure SelState where
  moves : List Nat
  wdl : Int
  dist : Int
  real : Int
deriving DecidableEq

/-- One iteration of the best-so-far update in `_make_gaviota_move`
(lines 434-448) and `_make_syzygy_move` (lines 492-509). -/
def selStep (s : SelState) (e : ScoredMove) : SelState :=
  if s.moves ≠ [] then
    if e.wdl > s.wdl then ⟨[e.move], e.wdl, e.dist, e.real⟩
    else if e.wdl = s.wdl then
      if e.dist < s.dist then ⟨[e.move], e.wdl, e.dist, e.real⟩
      else if e.dist = s.dist then ⟨s.moves ++ [e.move], s.wdl, s.dist, s.real⟩
      else s
    else s
  else ⟨[e.move], e.wdl, e.dist, e.real⟩

/-- The initial selector state: `best_moves = []`, `best_wdl = -2`,
`best_dtm`/`best_dtz` = 1_000_000 (and `best_real_dtz` likewise). -/
def selInit : SelState := ⟨[], -2, 1000000, 1000000⟩

/-- The whole selector scan over the legal moves, in order. -/
def selFold (xs : List ScoredMove) : SelState := xs.foldl selStep selInit

/-- A scored move is optimal within the scan: its class is maximal and its
comparison distance is minimal among the moves of maximal class. -/
def OptIn (xs : List ScoredMove) (e : ScoredMove) : Prop :=
  (∀ f ∈ xs, f.wdl ≤ e.wdl) ∧ (∀ f ∈ xs, f.wdl = e.wdl → e.dist ≤ f.dist)

instance (xs : List ScoredMove) (e : ScoredMove) : Decidable (OptIn xs e) := by
  unfold OptIn; infer_instance

/-- The parts of the game/board state the move sources consult. -/
structure GameCtx where
  is_white : Bool
  white_time : Int
  black_time : Int
  stack_len : Nat
  ply : Nat
  turn : Bool
  uci_variant : String
  occupied : Nat
deriving DecidableEq

/-- Embeds `Lichess_Game._has_time` (lines 755-760). -/
def has_time (ctx : GameCtx) (min_time : Int) : Bool :=
  if ctx.stack_len < 2 then true
  else decide ((if ctx.is_white then ctx.white_time else ctx.black_time) ≥ min_time * 1000)

/-- One legal move as seen by `_make_gaviota_move`: whether pushing it
checkmates, whether the tablebase probe succeeds, the probed DTM value and
the resulting halfmove clock. -/
structure GaviotaEntry where
  move : Nat
  is_checkmate : Bool
  probe_ok : Bool
  probe_dtm : Int
  halfmove_clock : Nat
deriving DecidableEq

/-- Scoring of a single move in `_make_gaviota_move` (lines 424-432):
checkmate counts as class +2 at distance 0, otherwise the probed DTM is
negated and classified. -/
def gaviotaScore (e : GaviotaEntry) : ScoredMove :=
  if e.is_checkmate then ⟨e.move, 2, 0, 0⟩
  else
    let dtm := -e.probe_dtm
    ⟨e.move, value_to_wdl dtm (e.halfmove_clock : Int), dtm, dtm⟩

structure GaviotaConfig where
  enabled : Bool
  max_pieces : Nat
deriving DecidableEq

/-- Embeds `Lichess_Game._make_gaviota_move` (lines 404-455).  A probe
failure (`MissingTableError`) anywhere aborts the source; `random.choice`
is kept abstract by returning the whole best set (the empty legal-move
list, on which `random.choice` would raise, is mapped to `none`). -/
def make_gaviota_move (cfg : GaviotaConfig) (ctx : GameCtx) (entries : List GaviotaEntry) :
    Option (List Nat × String × Int × Bool × Bool) :=
  if !cfg.enabled then none
  else
    let is_endgame := decide (ctx.occupied ≤ cfg.max_pieces)
    let incompatible_variant := ctx.uci_variant != "chess"
    if !is_endgame || incompatible_variant then none
    else if entries.any (fun e => !e.is_checkmate && !e.probe_ok) then none
    else if entries.isEmpty then none
    else
      let s := selFold (entries.map gaviotaScore)
      if s.wdl = 2 then some (s.moves, "win", s.dist, false, false)
      else if s.wdl = 0 then some (s.moves, "draw", s.dist, true, false)
      else if s.wdl = -2 then some (s.moves, "loss", s.dist, false, true)
      else none

/-- One legal move as seen by `_make_syzygy_move`: whether the DTZ probe
succeeds, the probed DTZ value and the resulting halfmove clock. -/
structure SyzygyEntry where
  move : Nat
  probe_ok : Bool
  probe_dtz : Int
  halfmove_clock : Nat
deriving DecidableEq

/-- Scoring of a single move in `_make_syzygy_move` (lines 478-490): the
probed DTZ is negated and classified; the unbiased value is remembered as
`real` while the comparison value is biased by ±10000 whenever the move
resets the halfmove clock. -/
def syzygyScore (e : SyzygyEntry) : ScoredMove :=
  let dtz := -e.probe_dtz
  let wdl := value_to_wdl dtz (e.halfmove_clock : Int)
  let real_dtz := dtz
  let cmp :=
    if e.halfmove_clock = 0 then
      if wdl < 0 then dtz + 10000
      else if wdl > 0 then dtz - 10000
      else dtz
    else dtz
  ⟨e.move, wdl, cmp, real_dtz⟩

structure SyzygyConfig where
  enabled : Bool
  instant_play : Bool
  max_pieces : Nat
deriving DecidableEq

/-- Embeds `Lichess_Game._make_syzygy_move` (lines 457-520), with the same
abstractions as `make_gaviota_move`. -/
def make_syzygy_move (cfg : SyzygyConfig) (ctx : GameCtx) (entries : List SyzygyEntry) :
    Option (List Nat × String × Int × Bool × Bool) :=
  if !(cfg.enabled && cfg.instant_play) then none
  else
    let is_endgame := decide (ctx.occupied ≤ cfg.max_pieces)
    let incompatible_variant := !(["chess", "antichess", "atomic"].contains ctx.uci_variant)
    if !is_endgame || incompatible_variant then none
    else if entries.any (fun e => !e.probe_ok) then none
    else if entries.isEmpty then none
    else
      let s := selFold (entries.map syzygyScore)
      if s.wdl = 2 then some (s.moves, "win", s.real, false, false)
      else if s.wdl = 1 then some (s.moves, "cursed win", s.real, false, false)
      else if s.wdl = 0 then some (s.moves, "draw", s.real, true, false)
      else if s.wdl = -1 then some (s.moves, "blessed loss", s.real, true, false)
      else some (s.moves, "loss", s.real, false, true)

structure EgtbConfig where
  enabled : Bool
  min_time : Int
  timeout : Int
deriving DecidableEq

/-- One move of an online-tablebase response (`response['moves'][i]`). -/
structure EgtbMoveInfo where
  uci : Nat
  dtz : Int
deriving DecidableEq

/-- The accepted online-tablebase response shape used by
`_make_egtb_move`: the move list (the top move is `moves[0]`), the
position's outcome category, and the optional DTM. -/
structure EgtbResponse where
  moves : List EgtbMoveInfo
  category : String
  dtm : Option Int
deriving DecidableEq

/-- Output of an online adapter without a miss counter: the move result
and the clock debit (ms) charged on a timed-out query. -/
structure EgtbOut where
  result : Option (Nat × String × Int × Option Int × Bool × Bool)
  time_debit : Int
deriving DecidableEq

/-- Embeds `Lichess_Game._make_egtb_move` (lines 564-591).  The
repetition predicate `isRep` (the board's `_is_repetition`) is passed in
like for the other sources, but the source never consults it; an empty
response move list (on which `response['moves'][0]` would raise) is
mapped to `none`. -/
def make_egtb_move (cfg : EgtbConfig) (ctx : GameCtx) (response : Option EgtbResponse)
    (isRep : Nat → Bool) : EgtbOut :=
  if !cfg.enabled then ⟨none, 0⟩
  else
    let max_pieces : Nat := if ctx.uci_variant == "chess" then 7 else 6
    let is_endgame := decide (ctx.occupied ≤ max_pieces)
    let ht := has_time ctx cfg.min_time
    let incompatible_variant := !(["chess", "antichess", "atomic"].contains ctx.uci_variant)
    if !is_endgame || !ht || incompatible_variant then ⟨none, 0⟩
    else
      match response with
      | some resp =>
        match resp.moves with
        | [] => ⟨none, 0⟩
        | top :: _ =>
          let offer_draw := ["draw", "blessed loss"].contains resp.category
          let resign := resp.category == "loss"
          ⟨some (top.uci, resp.category, -top.dtz, resp.dtm, offer_draw, resign), 0⟩
      | none => ⟨none, cfg.timeout * 1000⟩

/-- Python's `max(xs, key := key)`: the first element attaining the
maximal key (`none` on an empty list, where Python raises). -/
def pyMaxBy {α β : Type} [LinearOrder β] (key : α → β) : List α → Option α
  | [] => none
  | x :: t => some (t.foldl (fun b y => if key b < key y then y else b) x)

/-- The `too_deep` eligibility test shared by the book and online
sources: `board.ply() >= max_depth`, with a missing `max_depth` key read
as infinity. -/
def too_deep_check (max_depth : Option Nat) (ply : Nat) : Bool :=
  match max_depth with
  | some d => decide (d ≤ ply)
  | none => false

/-- A polyglot opening-book entry: move, weight and learn value. -/
structure BookEntry where
  move : Nat
  weight : Nat
  learn : Int
deriving DecidableEq

structure BookConfig where
  enabled : Bool
  max_depth : Option Nat
  read_learn : Bool
  selection : String
deriving DecidableEq

/-- The entry-selection policy of `_make_book_move` (lines 233-238):
random (abstracted by `pick`) for the two random policies, else the first
entry of maximal weight. -/
def book_select (cfg : BookConfig) (pick : List BookEntry → BookEntry)
    (e0 : BookEntry) (es : List BookEntry) : BookEntry :=
  if cfg.selection = "weighted_random" then pick (e0 :: es)
  else if cfg.selection = "uniform_random" then pick (e0 :: es)
  else (pyMaxBy (fun en => en.weight) (e0 :: es)).getD e0

/-- The reader loop of `_make_book_move` (lines 230-244): each reader's
entry list is consulted in order; from the first nonempty one an entry is
selected, and returned unless it repeats, in which case the scan moves on
to the next reader. -/
def book_scan (cfg : BookConfig) (pick : List BookEntry → BookEntry) (isRep : Nat → Bool) :
    List (List BookEntry) → Option (Nat × ℚ × Int)
  | [] => none
  | entries :: rest =>
    match entries with
    | [] => book_scan cfg pick isRep rest
    | e0 :: es =>
      let entry := book_select cfg pick e0 es
      if !isRep entry.move then
        some (entry.move,
          (entry.weight : ℚ) / (((e0 :: es).map (fun en => (en.weight : ℚ))).sum) * 100,
          if cfg.read_learn then entry.learn else 0)
      else book_scan cfg pick isRep rest

/-- Output of a source with a consecutive-miss counter: the move result,
the new counter value, and whether the source was actually consulted. -/
structure BookOut where
  result : Option (Nat × ℚ × Int)
  counter : Nat
  queried : Bool
deriving DecidableEq

/-- Embeds `Lichess_Game._make_book_move` (lines 215-246). -/
def make_book_move (cfg : BookConfig) (counter : Nat) (ctx : GameCtx)
    (readers : List (List BookEntry)) (pick : List BookEntry → BookEntry)
    (isRep : Nat → Bool) : BookOut :=
  if !cfg.enabled then ⟨none, counter, false⟩
  else
    let out_of_book := decide (10 ≤ counter)
    let too_deep := too_deep_check cfg.max_depth ctx.ply
    if out_of_book || too_deep then ⟨none, counter, false⟩
    else
      match book_scan cfg pick isRep readers with
      | some r => ⟨some r, 0, true⟩
      | none => ⟨none, counter + 1, true⟩

/-- One move entry of an opening-explorer response. -/
structure ExpMove where
  uci : Nat
  white : Nat
  draws : Nat
  black : Nat
  performance : Int
deriving DecidableEq

structure ExpResponse where
  white : Nat
  draws : Nat
  black : Nat
  moves : List ExpMove
deriving DecidableEq

structure ExplorerConfig where
  enabled : Bool
  max_depth : Option Nat
  min_time : Int
  use_for_variants : Bool
  timeout : Int
  min_games : Nat
  only_with_wins : Bool
  anti : Bool
  win_rate : Bool
deriving DecidableEq

/-- Embeds `Lichess_Game._get_opening_explorer_top_move` (lines 316-329):
the top move together with its side-relative wins and losses. -/
def get_opening_explorer_top_move (turn : Bool) (win_rate : Bool) (moves : List ExpMove) :
    Option (ExpMove × Nat × Nat) :=
  if win_rate then
    (pyMaxBy (fun m => ((if turn then m.white else m.black) : ℚ) / ((m.white : ℚ) + m.draws + m.black))
        moves).map
      (fun m => (m, if turn then m.white else m.black, if turn then m.black else m.white))
  else
    (pyMaxBy (fun m => m.performance) moves).map
      (fun m => (m, if turn then m.white else m.black, if turn then m.black else m.white))

structure ExplorerOut where
  result : Option (Nat × Int × (Nat × Nat × Nat))
  counter : Nat
  queried : Bool
  time_debit : Int
deriving DecidableEq

/-- Embeds `Lichess_Game._make_opening_explorer_move` (lines 272-314).
An empty response move list (on which Python's `max` would raise) is
mapped to a miss. -/
def make_opening_explorer_move (cfg : ExplorerConfig) (counter : Nat) (ctx : GameCtx)
    (response : Option ExpResponse) (isRep : Nat → Bool) : ExplorerOut :=
  if !cfg.enabled then ⟨none, counter, false, 0⟩
  else
    let out_of_book := decide (10 ≤ counter)
    let too_deep := too_deep_check cfg.max_depth ctx.ply
    let ht := has_time ctx cfg.min_time
    let is_variant := ctx.uci_variant != "chess"
    let forbidden_variant := is_variant && !cfg.use_for_variants
    if out_of_book || too_deep || !ht || forbidden_variant then ⟨none, counter, false, 0⟩
    else
      let min_games := max cfg.min_games 1
      match response with
      | some resp =>
        let game_count := resp.white + resp.draws + resp.black
        if game_count ≥ min_games then
          match get_opening_explorer_top_move ctx.turn cfg.win_rate resp.moves with
          | some (tm, wins, losses) =>
            let missing_win := cfg.only_with_wins && wins == 0
            if !missing_win then
              if !isRep tm.uci then
                ⟨some (tm.uci, tm.performance, (wins, tm.draws, losses)), 0, true, 0⟩
              else ⟨none, 1, true, 0⟩
            else ⟨none, counter + 1, true, 0⟩
          | none => ⟨none, counter + 1, true, 0⟩
        else ⟨none, counter + 1, true, 0⟩
      | none => ⟨none, counter, true, cfg.timeout * 1000⟩

structure CloudConfig where
  enabled : Bool
  max_depth : Option Nat
  min_time : Int
  only_without_book : Bool
  timeout : Int
  min_eval_depth : Int
deriving DecidableEq

/-- A cloud-evaluation response: whether it carries an error marker, the
reported depth, the first move of the principal variation and its score. -/
structure CloudResponse where
  error : Bool
  depth : Int
  pv_move : Nat
  cp : Int
deriving DecidableEq

structure CloudOut where
  result : Option (Nat × Int × Int)
  counter : Nat
  queried : Bool
  time_debit : Int
deriving DecidableEq

/-- Embeds `Lichess_Game._make_cloud_move` (lines 331-362). -/
def make_cloud_move (cfg : CloudConfig) (counter : Nat) (ctx : GameCtx) (has_books : Bool)
    (response : Option CloudResponse) (isRep : Nat → Bool) : CloudOut :=
  if !cfg.enabled then ⟨none, counter, false, 0⟩
  else
    let out_of_book := decide (10 ≤ counter)
    let too_deep := too_deep_check cfg.max_depth ctx.ply
    let ht := has_time ctx cfg.min_time
    let blocking_book := cfg.only_without_book && has_books
    if out_of_book || too_deep || !ht || blocking_book then ⟨none, counter, false, 0⟩
    else
      match response with
      | some resp =>
        if !resp.error then
          if resp.depth ≥ cfg.min_eval_depth then
            if !isRep resp.pv_move then ⟨some (resp.pv_move, resp.cp, resp.depth), 0, true, 0⟩
            else ⟨none, 1, true, 0⟩
          else ⟨none, counter + 1, true, 0⟩
        else ⟨none, counter + 1, true, 0⟩
      | none => ⟨none, counter, true, cfg.timeout * 1000⟩

structure ChessdbConfig where
  enabled : Bool
  max_depth : Option Nat
  min_time : Int
  timeout : Int
  min_eval_depth : Int
  selection : String
deriving DecidableEq

/-- A community-database response: status, optional depth (50 assumed
when absent), optional direct move and the head of the pv. -/
structure ChessdbResponse where
  status_ok : Bool
  depth : Option Int
  move : Option Nat
  pv_head : Nat
deriving DecidableEq

structure ChessdbOut where
  result : Option Nat
  counter : Nat
  queried : Bool
  time_debit : Int
  action : String
deriving DecidableEq

/-- The move extraction of `_make_chessdb_move` (line 395): the `move`
field when present, else the head of the pv. -/
def chessdb_move_of (resp : ChessdbResponse) : Nat :=
  match resp.move with
  | some m => m
  | none => resp.pv_head

/-- Embeds `Lichess_Game._make_chessdb_move` (lines 364-402). -/
def make_chessdb_move (cfg : ChessdbConfig) (counter : Nat) (ctx : GameCtx)
    (response : Option ChessdbResponse) (isRep : Nat → Bool) : ChessdbOut :=
  let action :=
    if cfg.selection = "good" then "querybest"
    else if cfg.selection = "all" then "query"
    else "querypv"
  if !cfg.enabled then ⟨none, counter, false, 0, action⟩
  else
    let out_of_book := decide (10 ≤ counter)
    let too_deep := too_deep_check cfg.max_depth ctx.ply
    let ht := has_time ctx cfg.min_time
    let incompatible_variant := ctx.uci_variant != "chess"
    let is_endgame := decide (ctx.occupied ≤ 7)
    if out_of_book || too_deep || !ht || incompatible_variant || is_endgame then
      ⟨none, counter, false, 0, action⟩
    else
      match response with
      | some resp =>
        if resp.status_ok then
          if (resp.depth.getD 50) ≥ cfg.min_eval_depth then
            let uci_move := chessdb_move_of resp
            if !isRep uci_move then ⟨some uci_move, 0, true, 0, action⟩
            else ⟨none, 1, true, 0, action⟩
          else ⟨none, counter + 1, true, 0, action⟩
        else ⟨none, counter + 1, true, 0, action⟩
      | none => ⟨none, counter, true, cfg.timeout * 1000, action⟩

/-- Embeds `Lichess_Game._is_drawish` (lines 182-198); the scores are the
already-resolved side-relative values `score.relative.score(mate_score=40000)`
held in the `draw_scores` deque. -/
def is_drawish (draw_enabled : Bool) (fullmove_number min_game_length : Nat)
    (consecutive_moves : Nat) (draw_scores : List Int) (max_score : Int) : Bool :=
  if !draw_enabled then false
  else
    let too_shallow := decide (fullmove_number < min_game_length)
    let too_few_scores := decide (draw_scores.length < consecutive_moves)
    if too_shallow || too_few_scores then false
    else !draw_scores.any (fun score => decide (max_score < |score|))

/-- Python's `int()` on a rational value: truncation toward zero. -/
def pyInt (x : ℚ) : ℤ :=
  if x < 0 then ⌈x⌉ else ⌊x⌋

/-- Embeds `Lichess_Game._get_move_overhead` (lines 751-753);
`initial_time` is the value of the game event's `clock.initial` field,
which the surrounding API delivers in milliseconds. -/
def get_move_overhead (initial_time : ℚ) (multiplier : ℚ) : ℤ :=
  max (pyInt (initial_time / 60 * multiplier)) 1000

/-- Modelled from the spec: the spec's own move-overhead formula
"Move overhead (ms) = max(initial_time_seconds / 60 × configured
multiplier, 1000)", taking the initial time in seconds as it states. -/
def spec_move_overhead (initial_time_seconds : ℚ) (multiplier : ℚ) : ℚ :=
  max (initial_time_seconds / 60 * multiplier) 1000

/-- The provenance of the move chosen by `make_move`. -/
inductive Source
  | book | explorer | cloud | chessdb | gaviota | syzygy | egtb | engine
deriving DecidableEq

/-- The instance state `make_move` reads and writes: the move stack, the
pondering flag, and the two feature-enable flags ANDed into the returned
draw/resign flags. -/
structure MMState where
  stack : List Nat
  ponder_enabled : Bool
  draw_enabled : Bool
  resign_enabled : Bool
deriving DecidableEq

/-- Embeds `Lichess_Game.stop_pondering` (lines 164-167) restricted to its
state effect: the flag is cleared permanently (the near-zero-time search it
issues to cancel the current analysis is not modelled). -/
def stop_pondering (st : MMState) : MMState :=
  if st.ponder_enabled then { st with ponder_enabled := false } else st

/-- The outcome of one `make_move` decision cycle: the new state, the
chosen move with its provenance and flags, and whether a fresh pondering
search was started on the resulting position (`start_pondering`, lines
160-162, issues one exactly when the flag is still set). -/
structure MMResult where
  state : MMState
  move : Nat
  source : Source
  offer_draw : Bool
  resign : Bool
  ponder_started : Bool
deriving DecidableEq

/-- The common tail of `make_move` (lines 87-92): push the chosen move,
and call `start_pondering` unless the move was engine-sourced past the
first two plies. -/
def mm_finish (st : MMState) (m : Nat) (src : Source) (od rs : Bool)
    (engine_move : Bool) : MMResult :=
  let st1 := { st with stack := st.stack ++ [m] }
  let started := !engine_move && st1.ponder_enabled
  ⟨st1, m, src, od && st.draw_enabled, rs && st.resign_enabled, started⟩

/-- Embeds `Lichess_Game.make_move` (lines 51-92) with each source's
outcome supplied as an input: the fixed fallback chain, the draw/resign
flags carried by the tablebase sources, the `stop_pondering` calls in the
Gaviota and Syzygy branches, and the `engine_move` marker that is set only
for an engine move with more than one move already on the stack. -/
def make_move (st : MMState)
    (book explorer cloud chessdb : Option Nat)
    (gaviota syzygy egtb : Option (Nat × Bool × Bool))
    (engine_mv : Nat) (drawish resignable : Bool) : MMResult :=
  match book with
  | some m => mm_finish st m .book false false false
  | none =>
  match explorer with
  | some m => mm_finish st m .explorer false false false
  | none =>
  match cloud with
  | some m => mm_finish st m .cloud false false false
  | none =>
  match chessdb with
  | some m => mm_finish st m .chessdb false false false
  | none =>
  match gaviota with
  | some (m, od, rs) => mm_finish (stop_pondering st) m .gaviota od rs false
  | none =>
  match syzygy with
  | some (m, od, rs) => mm_finish (stop_pondering st) m .syzygy od rs false
  | none =>
  match egtb with
  | some (m, od, rs) => mm_finish st m .egtb od rs false
  | none => mm_finish st engine_mv .engine drawish resignable (decide (1 < st.stack.length))

/-- The per-cycle inputs of the book source other than its counter. -/
structure BookEnv where
  cfg : BookConfig
  ctx : GameCtx
  readers : List (List BookEntry)
  pick : List BookEntry → BookEntry
  isRep : Nat → Bool

/-- Iterated decision cycles of the book source: the per-cycle
(result, queried) observations and the final miss counter. -/
def bookRun (counter : Nat) : List BookEnv → List (Option (Nat × ℚ × Int) × Bool) × Nat
  | [] => ([], counter)
  | e :: rest =>
    let o := make_book_move e.cfg counter e.ctx e.readers e.pick e.isRep
    let (tl, fin) := bookRun o.counter rest
    ((o.result, o.queried) :: tl, fin)

/-- The per-cycle inputs of the opening-explorer source. -/
structure ExplorerEnv where
  cfg : ExplorerConfig
  ctx : GameCtx
  response : Option ExpResponse
  isRep : Nat → Bool

/-- Iterated decision cycles of the opening-explorer source. -/
def explorerRun (counter : Nat) :
    List ExplorerEnv → List (Option (Nat × Int × (Nat × Nat × Nat)) × Bool) × Nat
  | [] => ([], counter)
  | e :: rest =>
    let o := make_opening_explorer_move e.cfg counter e.ctx e.response e.isRep
    let (tl, fin) := explorerRun o.counter rest
    ((o.result, o.queried) :: tl, fin)

/-- The per-cycle inputs of the cloud source. -/
structure CloudEnv where
  cfg : CloudConfig
  ctx : GameCtx
  has_books : Bool
  response : Option CloudResponse
  isRep : Nat → Bool

/-- Iterated decision cycles of the cloud source. -/
def cloudRun (counter : Nat) : List CloudEnv → List (Option (Nat × Int × Int) × Bool) × Nat
  | [] => ([], counter)
  | e :: rest =>
    let o := make_cloud_move e.cfg counter e.ctx e.has_books e.response e.isRep
    let (tl, fin) := cloudRun o.counter rest
    ((o.result, o.queried) :: tl, fin)

/-- The per-cycle inputs of the community-database source. -/
structure ChessdbEnv where
  cfg : ChessdbConfig
  ctx : GameCtx
  response : Option ChessdbResponse
  isRep : Nat → Bool

/-- Iterated decision cycles of the community-database source. -/
def chessdbRun (counter : Nat) : List ChessdbEnv → List (Option Nat × Bool) × Nat
  | [] => ([], counter)
  | e :: rest =>
    let o := make_chessdb_move e.cfg counter e.ctx e.response e.isRep
    let (tl, fin) := chessdbRun o.counter rest
    ((o.result, o.queried) :: tl, fin)

/-- The loop invariant of the best-so-far scan: after processing the
nonempty move list `xs` the state holds the maximal class, the minimal
comparison distance within that class, the reported distance of one of
the optimal moves, and exactly the optimal moves in scan order. -/
structure SelInv (xs : List ScoredMove) (s : SelState) : Prop where
  nonempty : s.moves ≠ []
  mem : ∃ e ∈ xs, e.wdl = s.wdl ∧ e.dist = s.dist ∧ e.real = s.real
  maxW : ∀ f ∈ xs, f.wdl ≤ s.wdl
  minD : ∀ f ∈ xs, f.wdl = s.wdl → s.dist ≤ f.dist
  movesEq : s.moves = (xs.filter (fun f => f.wdl == s.wdl && f.dist == s.dist)).map ScoredMove.move

theorem selStep_inv {xs : List ScoredMove} {s : SelState} (e : ScoredMove)
    (h : SelInv xs s) : SelInv (xs ++ [e]) (selStep s e) := by
  have hmoves := h.nonempty
  unfold selStep
  rw [if_pos hmoves]
  by_cases h1 : e.wdl > s.wdl
  · rw [if_pos h1]
    refine ⟨by simp, ⟨e, by simp, rfl, rfl, rfl⟩, ?_, ?_, ?_⟩
    · intro f hf
      rcases List.mem_append.mp hf with hf | hf
      · exact le_of_lt (lt_of_le_of_lt (h.maxW f hf) h1)
      · simp only [List.mem_singleton] at hf
        subst hf; exact le_refl _
    · intro f hf hw
      rcases List.mem_append.mp hf with hf | hf
      · have := h.maxW f hf; (try dsimp only at *); omega
      · simp only [List.mem_singleton] at hf
        subst hf; exact le_refl _
    · rw [List.filter_append]
      have hnil : xs.filter (fun f => f.wdl == e.wdl && f.dist == e.dist) = [] := by
        rw [List.filter_eq_nil_iff]
        intro f hf
        have := h.maxW f hf
        simp only [Bool.and_eq_true, beq_iff_eq, not_and]
        intro hw; omega
      rw [hnil]
      simp
  · rw [if_neg h1]
    by_cases h2 : e.wdl = s.wdl
    · rw [if_pos h2]
      by_cases h3 : e.dist < s.dist
      · rw [if_pos h3]
        refine ⟨by simp, ⟨e, by simp, rfl, rfl, rfl⟩, ?_, ?_, ?_⟩
        · intro f hf
          rcases List.mem_append.mp hf with hf | hf
          · have := h.maxW f hf; (try dsimp only at *); omega
          · simp only [List.mem_singleton] at hf
            subst hf; exact le_refl _
        · intro f hf hw
          rcases List.mem_append.mp hf with hf | hf
          · dsimp only at hw ⊢
            have := h.minD f hf (by omega)
            omega
          · simp only [List.mem_singleton] at hf
            subst hf; exact le_refl _
        · rw [List.filter_append]
          have hnil : xs.filter (fun f => f.wdl == e.wdl && f.dist == e.dist) = [] := by
            rw [List.filter_eq_nil_iff]
            intro f hf
            simp only [Bool.and_eq_true, beq_iff_eq, not_and]
            intro hw hd
            have := h.minD f hf (by omega)
            omega
          rw [hnil]
          simp
      · rw [if_neg h3]
        by_cases h4 : e.dist = s.dist
        · rw [if_pos h4]
          obtain ⟨w, hw, hww, hwd, hwr⟩ := h.mem
          refine ⟨by simp, ⟨w, List.mem_append_left _ hw, hww, hwd, hwr⟩, ?_, ?_, ?_⟩
          · intro f hf
            rcases List.mem_append.mp hf with hf | hf
            · exact h.maxW f hf
            · simp only [List.mem_singleton] at hf
              subst hf; (try dsimp only at *); omega
          · intro f hf hfw
            rcases List.mem_append.mp hf with hf | hf
            · exact h.minD f hf hfw
            · simp only [List.mem_singleton] at hf
              subst hf; (try dsimp only at *); omega
          · rw [List.filter_append]
            have hsing : [e].filter (fun f => f.wdl == s.wdl && f.dist == s.dist) = [e] := by
              simp [h2, h4]
            rw [hsing, List.map_append, ← h.movesEq]
            rfl
        · rw [if_neg h4]
          obtain ⟨w, hw, hww, hwd, hwr⟩ := h.mem
          refine ⟨h.nonempty, ⟨w, List.mem_append_left _ hw, hww, hwd, hwr⟩, ?_, ?_, ?_⟩
          · intro f hf
            rcases List.mem_append.mp hf with hf | hf
            · exact h.maxW f hf
            · simp only [List.mem_singleton] at hf
              subst hf; (try dsimp only at *); omega
          · intro f hf hfw
            rcases List.mem_append.mp hf with hf | hf
            · exact h.minD f hf hfw
            · simp only [List.mem_singleton] at hf
              subst hf; (try dsimp only at *); omega
          · rw [List.filter_append]
            have hsing : [e].filter (fun f => f.wdl == s.wdl && f.dist == s.dist) = [] := by
              rw [List.filter_eq_nil_iff]
              intro f hf
              simp only [List.mem_singleton] at hf
              subst hf
              simp only [Bool.and_eq_true, beq_iff_eq, not_and]
              intro _ hd; exact h4 hd
            rw [hsing]
            simpa using h.movesEq
    · rw [if_neg h2]
      obtain ⟨w, hw, hww, hwd, hwr⟩ := h.mem
      refine ⟨h.nonempty, ⟨w, List.mem_append_left _ hw, hww, hwd, hwr⟩, ?_, ?_, ?_⟩
      · intro f hf
        rcases List.mem_append.mp hf with hf | hf
        · exact h.maxW f hf
        · simp only [List.mem_singleton] at hf
          subst hf; (try dsimp only at *); omega
      · intro f hf hfw
        rcases List.mem_append.mp hf with hf | hf
        · exact h.minD f hf hfw
        · simp only [List.mem_singleton] at hf
          subst hf; exact absurd hfw h2
      · rw [List.filter_append]
        have hsing : [e].filter (fun f => f.wdl == s.wdl && f.dist == s.dist) = [] := by
          rw [List.filter_eq_nil_iff]
          intro f hf
          simp only [List.mem_singleton] at hf
          subst hf
          simp only [Bool.and_eq_true, beq_iff_eq, not_and]
          intro hww2; exact absurd hww2 h2
        rw [hsing]
        simpa using h.movesEq

theorem selInv_single (e : ScoredMove) : SelInv [e] (selStep selInit e) := by
  have hstep : selStep selInit e = ⟨[e.move], e.wdl, e.dist, e.real⟩ := by
    unfold selStep selInit
    simp
  rw [hstep]
  refine ⟨by simp, ⟨e, by simp, rfl, rfl, rfl⟩, by simp, ?_, by simp⟩
  intro f hf hw
  simp only [List.mem_singleton] at hf
  subst hf; exact le_refl _

theorem selFold_go (xs : List ScoredMove) : ∀ (acc : List ScoredMove) (s : SelState),
    SelInv acc s → SelInv (acc ++ xs) (xs.foldl selStep s) := by
  induction xs with
  | nil =>
    intro acc s h
    simpa using h
  | cons e t ih =>
    intro acc s h
    have h2 := selStep_inv e h
    have h3 := ih (acc ++ [e]) (selStep s e) h2
    simpa [List.append_assoc] using h3

theorem selInv_selFold (xs : List ScoredMove) (hx : xs ≠ []) : SelInv xs (selFold xs) := by
  match xs, hx with
  | e :: t, _ =>
    have h1 := selInv_single e
    have h2 := selFold_go t [e] (selStep selInit e) h1
    simpa [selFold] using h2

theorem selFold_moves_optIn (xs : List ScoredMove) (hx : xs ≠ []) :
    (selFold xs).moves = (xs.filter (fun e => decide (OptIn xs e))).map ScoredMove.move := by
  have h := selInv_selFold xs hx
  rw [h.movesEq]
  congr 1
  apply List.filter_congr
  intro f hf
  obtain ⟨w, hw, hww, hwd, hwr⟩ := h.mem
  by_cases hopt : OptIn xs f
  · have h1 : f.wdl = (selFold xs).wdl :=
      le_antisymm (h.maxW f hf) (hww ▸ hopt.1 w hw)
    have h2 : f.dist = (selFold xs).dist := by
      have hle : f.dist ≤ w.dist := hopt.2 w hw (by omega)
      have := h.minD f hf h1
      omega
    simp [h1, h2, hopt]
  · rw [decide_eq_false hopt]
    by_contra hc
    rw [Bool.not_eq_false, Bool.and_eq_true, beq_iff_eq, beq_iff_eq] at hc
    exact hopt ⟨fun g hg => hc.1 ▸ h.maxW g hg,
      fun g hg hgw => by have := h.minD g hg (by omega); omega⟩

theorem book_scan_no_repetition (cfg : BookConfig) (pick : List BookEntry → BookEntry)
    (isRep : Nat → Bool) (readers : List (List BookEntry)) (m : Nat) (w : ℚ) (l : Int)
    (h : book_scan cfg pick isRep readers = some (m, w, l)) : isRep m = false := by
  induction readers with
  | nil => simp [book_scan] at h
  | cons entries rest ih =>
    cases entries with
    | nil =>
      rw [show book_scan cfg pick isRep ([] :: rest) = book_scan cfg pick isRep rest from rfl] at h
      exact ih h
    | cons e0 es =>
      have hunf : book_scan cfg pick isRep ((e0 :: es) :: rest) =
          (if !isRep (book_select cfg pick e0 es).move then
            some ((book_select cfg pick e0 es).move,
              ((book_select cfg pick e0 es).weight : ℚ) /
                (((e0 :: es).map (fun en => (en.weight : ℚ))).sum) * 100,
              if cfg.read_learn then (book_select cfg pick e0 es).learn else 0)
          else book_scan cfg pick isRep rest) := rfl
      rw [hunf] at h
      by_cases hrep : isRep (book_select cfg pick e0 es).move = true
      · rw [if_neg (by simp [hrep])] at h
        exact ih h
      · rw [Bool.not_eq_true] at hrep
        rw [if_pos (by simp [hrep])] at h
        simp only [Option.some.injEq, Prod.mk.injEq] at h
        obtain ⟨h1, -⟩ := h
        rw [← h1]
        exact hrep

theorem make_book_move_disabled (cfg : BookConfig) (ctx : GameCtx)
    (readers : List (List BookEntry)) (pick : List BookEntry → BookEntry)
    (isRep : Nat → Bool) (c : Nat) (hc : 10 ≤ c) :
    make_book_move cfg c ctx readers pick isRep = ⟨none, c, false⟩ := by
  unfold make_book_move
  cases cfg.enabled
  · simp
  · simp [hc]

theorem make_opening_explorer_move_disabled (cfg : ExplorerConfig) (ctx : GameCtx)
    (response : Option ExpResponse) (isRep : Nat → Bool) (c : Nat) (hc : 10 ≤ c) :
    make_opening_explorer_move cfg c ctx response isRep = ⟨none, c, false, 0⟩ := by
  unfold make_opening_explorer_move
  cases cfg.enabled
  · simp
  · simp [hc]

theorem make_cloud_move_disabled (cfg : CloudConfig) (ctx : GameCtx) (has_books : Bool)
    (response : Option CloudResponse) (isRep : Nat → Bool) (c : Nat) (hc : 10 ≤ c) :
    make_cloud_move cfg c ctx has_books response isRep = ⟨none, c, false, 0⟩ := by
  unfold make_cloud_move
  cases cfg.enabled
  · simp
  · simp [hc]

theorem make_chessdb_move_disabled (cfg : ChessdbConfig) (ctx : GameCtx)
    (response : Option ChessdbResponse) (isRep : Nat → Bool) (c : Nat) (hc : 10 ≤ c) :
    make_chessdb_move cfg c ctx response isRep =
      ⟨none, c, false, 0,
        if cfg.selection = "good" then "querybest"
        else if cfg.selection = "all" then "query"
        else "querypv"⟩ := by
  unfold make_chessdb_move
  cases cfg.enabled
  · simp
  · simp [hc]

theorem bookRun_disabled (c : Nat) (hc : 10 ≤ c) (envs : List BookEnv) :
    bookRun c envs = (envs.map (fun _ => (none, false)), c) := by
  induction envs with
  | nil => rfl
  | cons e rest ih =>
    rw [bookRun, make_book_move_disabled e.cfg e.ctx e.readers e.pick e.isRep c hc]
    rw [ih]
    rfl

theorem explorerRun_disabled (c : Nat) (hc : 10 ≤ c) (envs : List ExplorerEnv) :
    explorerRun c envs = (envs.map (fun _ => (none, false)), c) := by
  induction envs with
  | nil => rfl
  | cons e rest ih =>
    rw [explorerRun, make_opening_explorer_move_disabled e.cfg e.ctx e.response e.isRep c hc]
    rw [ih]
    rfl

theorem cloudRun_disabled (c : Nat) (hc : 10 ≤ c) (envs : List CloudEnv) :
    cloudRun c envs = (envs.map (fun _ => (none, false)), c) := by
  induction envs with
  | nil => rfl
  | cons e rest ih =>
    rw [cloudRun, make_cloud_move_disabled e.cfg e.ctx e.has_books e.response e.isRep c hc]
    rw [ih]
    rfl

theorem chessdbRun_disabled (c : Nat) (hc : 10 ≤ c) (envs : List ChessdbEnv) :
    chessdbRun c envs = (envs.map (fun _ => (none, false)), c) := by
  induction envs with
  | nil => rfl
  | cons e rest ih =>
    rw [chessdbRun, make_chessdb_move_disabled e.cfg e.ctx e.response e.isRep c hc]
    rw [ih]
    rfl

/-- C1: the outcome classifier returns +2 if `d > 0` and `d + h <= 100`,
+1 if `d > 0` and `d + h > 100`, -2 if `d < 0` and `d - h >= -100`, -1 if
`d < 0` and `d - h < -100`, and 0 if `d = 0`; in particular
`classify(5,96) = +1`, `classify(5,90) = +2`, `classify(-5,96) = -1` and
`classify(0,40) = 0`. -/
theorem value_to_wdl_matches_classifier_rule :
    (∀ d h : Int,
      (0 < d → d + h ≤ 100 → value_to_wdl d h = 2) ∧
      (0 < d → 100 < d + h → value_to_wdl d h = 1) ∧
      (d < 0 → -100 ≤ d - h → value_to_wdl d h = -2) ∧
      (d < 0 → d - h < -100 → value_to_wdl d h = -1) ∧
      (d = 0 → value_to_wdl d h = 0)) ∧
    value_to_wdl 5 96 = 1 ∧ value_to_wdl 5 90 = 2 ∧
    value_to_wdl (-5) 96 = -1 ∧ value_to_wdl 0 40 = 0 := by
  refine ⟨fun d h => ?_, by decide, by decide, by decide, by decide⟩
  refine ⟨?_, ?_, ?_, ?_, ?_⟩ <;>
    · intros
      simp only [value_to_wdl]
      split_ifs <;> omega

/-- Witness for C1 at the concrete input d = 5, h = 96. -/
theorem value_to_wdl_matches_classifier_rule_witness :
    value_to_wdl 5 96 = 1 :=
  ((value_to_wdl_matches_classifier_rule.1 5 96).2.1 (by decide) (by decide))

/-- C5: after the scan, the best-so-far set of the tablebase selectors
(`_make_gaviota_move` / `_make_syzygy_move`) holds exactly the moves of
maximal outcome class with minimal comparison distance within that class,
the returned move is drawn from that set, and on the concrete score set
{+2 at distance 3, +2 at distance 7, +1 at distance 1} exactly the
distance-3 class-+2 move is selected. -/
theorem selFold_best_set (xs : List ScoredMove) (hx : xs ≠ []) :
    (selFold xs).moves = (xs.filter (fun e => decide (OptIn xs e))).map ScoredMove.move ∧
    (∀ m ∈ (selFold xs).moves,
      m ∈ (xs.filter (fun e => decide (OptIn xs e))).map ScoredMove.move) ∧
    (selFold [⟨0, 2, 3, 3⟩, ⟨1, 2, 7, 7⟩, ⟨2, 1, 1, 1⟩]).moves = [0] := by
  have h := selFold_moves_optIn xs hx
  exact ⟨h, fun m hm => h ▸ hm, by decide⟩

/-- Witness for C5: the characterization evaluated on the concrete score
set {+2 at distance 3, +2 at distance 7, +1 at distance 1}. -/
theorem selFold_best_set_witness :
    (selFold [⟨0, 2, 3, 3⟩, ⟨1, 2, 7, 7⟩, ⟨2, 1, 1, 1⟩]).moves =
      ([⟨0, 2, 3, 3⟩, ⟨1, 2, 7, 7⟩, ⟨2, 1, 1, 1⟩].filter
        (fun e => decide (OptIn [⟨0, 2, 3, 3⟩, ⟨1, 2, 7, 7⟩, ⟨2, 1, 1, 1⟩] e))).map
        ScoredMove.move :=
  (selFold_best_set [⟨0, 2, 3, 3⟩, ⟨1, 2, 7, 7⟩, ⟨2, 1, 1, 1⟩] (by simp)).1

/-- C7: for each source with a consecutive-miss counter (book, opening
explorer, cloud, community database), once the counter has reached 10
every subsequent decision cycle returns no move without consulting the
source and leaves the counter unchanged, so an 11th query is never
issued. -/
theorem miss_counter_permanently_disables (c : Nat) (hc : 10 ≤ c) :
    (∀ envs : List BookEnv, bookRun c envs = (envs.map (fun _ => (none, false)), c)) ∧
    (∀ envs : List ExplorerEnv, explorerRun c envs = (envs.map (fun _ => (none, false)), c)) ∧
    (∀ envs : List CloudEnv, cloudRun c envs = (envs.map (fun _ => (none, false)), c)) ∧
    (∀ envs : List ChessdbEnv, chessdbRun c envs = (envs.map (fun _ => (none, false)), c)) :=
  ⟨bookRun_disabled c hc, explorerRun_disabled c hc,
    cloudRun_disabled c hc, chessdbRun_disabled c hc⟩

theorem stop_pondering_flag (st : MMState) : (stop_pondering st).ponder_enabled = false := by
  unfold stop_pondering
  split_ifs with h
  · rfl
  · simpa using h

theorem stop_pondering_stack (st : MMState) : (stop_pondering st).stack = st.stack := by
  unfold stop_pondering
  split_ifs <;> rfl

/-- Witness for C7: a disabled counter value of 10, one concrete decision
cycle per source: no query, no move, counter unchanged. -/
theorem miss_counter_permanently_disables_witness :
    bookRun 10 [⟨⟨true, none, false, "best_weight"⟩,
        ⟨true, 100000, 100000, 10, 10, true, "chess", 20⟩, [],
        fun l => l.headD ⟨0, 0, 0⟩, fun _ => false⟩] = ([(none, false)], 10) ∧
    explorerRun 10 [⟨⟨true, none, 0, true, 5, 1, false, false, false⟩,
        ⟨true, 100000, 100000, 10, 10, true, "chess", 20⟩, none, fun _ => false⟩] =
      ([(none, false)], 10) ∧
    cloudRun 10 [⟨⟨true, none, 0, false, 5, 1⟩,
        ⟨true, 100000, 100000, 10, 10, true, "chess", 20⟩, false, none, fun _ => false⟩] =
      ([(none, false)], 10) ∧
    chessdbRun 10 [⟨⟨true, none, 0, 5, 1, "good"⟩,
        ⟨true, 100000, 100000, 10, 10, true, "chess", 20⟩, none, fun _ => false⟩] =
      ([(none, false)], 10) :=
  ⟨(miss_counter_permanently_disables 10 (by decide)).1 _,
   (miss_counter_permanently_disables 10 (by decide)).2.1 _,
   (miss_counter_permanently_disables 10 (by decide)).2.2.1 _,
   (miss_counter_permanently_disables 10 (by decide)).2.2.2 _⟩

/-- C4 (amended): the book, opening-explorer, cloud and community-database
sources never return a candidate whose play would create a two-fold
repetition (they return no move instead, so the orchestrator proceeds to
the next source); the Gaviota, Syzygy and online-tablebase sources apply
no repetition guard at all. -/
theorem online_sources_reject_repetition :
    (∀ cfg c ctx readers pick isRep m w l,
      (make_book_move cfg c ctx readers pick isRep).result = some (m, w, l) →
        isRep m = false) ∧
    (∀ cfg c ctx response isRep m p wdl,
      (make_opening_explorer_move cfg c ctx response isRep).result = some (m, p, wdl) →
        isRep m = false) ∧
    (∀ cfg c ctx has_books response isRep m cp dep,
      (make_cloud_move cfg c ctx has_books response isRep).result = some (m, cp, dep) →
        isRep m = false) ∧
    (∀ cfg c ctx response isRep m,
      (make_chessdb_move cfg c ctx response isRep).result = some m → isRep m = false) := by
  refine ⟨?_, ?_, ?_, ?_⟩
  · intro cfg c ctx readers pick isRep m w l h
    rcases heq : book_scan cfg pick isRep readers with _ | r
    · unfold make_book_move at h
      rw [heq] at h
      dsimp only at h
      split_ifs at h <;> simp at h
    · unfold make_book_move at h
      rw [heq] at h
      dsimp only at h
      split_ifs at h <;> dsimp only at h <;> try simp at h
      subst h
      exact book_scan_no_repetition cfg pick isRep readers m w l heq
  · intro cfg c ctx response isRep m p wdl h
    rcases response with _ | resp
    · unfold make_opening_explorer_move at h
      dsimp only at h
      split_ifs at h <;> simp at h
    · rcases heq : get_opening_explorer_top_move ctx.turn cfg.win_rate resp.moves with
        _ | ⟨tm, wins, losses⟩
      · unfold make_opening_explorer_move at h
        dsimp only at h
        rw [heq] at h
        dsimp only at h
        split_ifs at h <;> simp at h
      · unfold make_opening_explorer_move at h
        dsimp only at h
        rw [heq] at h
        dsimp only at h
        split_ifs at h <;> dsimp only at h <;> try simp at h
        rename_i hrep
        rw [Bool.not_eq_true'] at hrep
        obtain ⟨h1, -⟩ := h
        rw [← h1]
        exact hrep
  · intro cfg c ctx has_books response isRep m cp dep h
    rcases response with _ | resp
    · unfold make_cloud_move at h
      dsimp only at h
      split_ifs at h <;> simp at h
    · unfold make_cloud_move at h
      dsimp only at h
      split_ifs at h <;> dsimp only at h <;> try simp at h
      rename_i hrep
      rw [Bool.not_eq_true'] at hrep
      obtain ⟨h1, -⟩ := h
      rw [← h1]
      exact hrep
  · intro cfg c ctx response isRep m h
    rcases response with _ | resp
    · unfold make_chessdb_move at h
      dsimp only at h
      simp only [apply_ite ChessdbOut.result] at h
      split_ifs at h <;> simp at h
    · unfold make_chessdb_move at h
      dsimp only at h
      simp only [apply_ite ChessdbOut.result] at h
      split_ifs at h <;> try simp at h
      rename_i hrep
      rw [Bool.not_eq_true'] at hrep
      rw [← h]
      exact hrep

/-- Witness for C4: a successful concrete community-database call, whose
returned move is certified non-repeating. -/
theorem online_sources_reject_repetition_witness :
    (make_chessdb_move ⟨true, none, 0, 5, 1, "good"⟩ 0
        ⟨true, 100000, 100000, 10, 10, true, "chess", 20⟩
        (some ⟨true, some 30, some 4, 9⟩) (fun _ => false)).result = some 4 ∧
    (fun _ => false : Nat → Bool) 4 = false :=
  ⟨by decide,
   online_sources_reject_repetition.2.2.2 ⟨true, none, 0, 5, 1, "good"⟩ 0
     ⟨true, 100000, 100000, 10, 10, true, "chess", 20⟩
     (some ⟨true, some 30, some 4, 9⟩) (fun _ => false) 4 (by decide)⟩

/-- C4 counterexample: the online-tablebase source returns its candidate
even when every move would create a two-fold repetition (`_make_egtb_move`
never consults `_is_repetition`), refuting the claim for this source. -/
theorem egtb_ignores_repetition_guard :
    (make_egtb_move ⟨true, 0, 5⟩ ⟨true, 1000000, 1000000, 10, 10, true, "chess", 5⟩
        (some ⟨[⟨7, 4⟩], "win", none⟩) (fun _ => true)).result =
      some (7, "win", -4, none, false, false) ∧
    (fun _ => true : Nat → Bool) 7 = true := by
  exact ⟨by decide, rfl⟩

/-- C2 (amended): tablebase draw/resign flags: class 0 (draw) offers a
draw; class -2 (loss) resigns; class -1 (blessed loss) also offers a draw
in the Syzygy and online-EGTB sources (Gaviota never returns classes ±1);
classes +2 and +1 set neither flag. -/
theorem tablebase_draw_resign_flags :
    (∀ cfg ctx entries ms outc d od rs,
      make_syzygy_move cfg ctx entries = some (ms, outc, d, od, rs) →
        ((outc = "draw" → od = true ∧ rs = false) ∧
         (outc = "blessed loss" → od = true ∧ rs = false) ∧
         (outc = "loss" → od = false ∧ rs = true) ∧
         (outc = "win" ∨ outc = "cursed win" → od = false ∧ rs = false))) ∧
    (∀ cfg ctx entries ms outc d od rs,
      make_gaviota_move cfg ctx entries = some (ms, outc, d, od, rs) →
        ((outc = "win" ∨ outc = "draw" ∨ outc = "loss") ∧
         (outc = "draw" → od = true ∧ rs = false) ∧
         (outc = "loss" → od = false ∧ rs = true) ∧
         (outc = "win" → od = false ∧ rs = false))) ∧
    (∀ cfg ctx response isRep mv outc d dtm od rs,
      (make_egtb_move cfg ctx response isRep).result = some (mv, outc, d, dtm, od, rs) →
        ((od = true ↔ (outc = "draw" ∨ outc = "blessed loss")) ∧
         (rs = true ↔ outc = "loss"))) := by
  refine ⟨?_, ?_, ?_⟩
  · intro cfg ctx entries ms outc d od rs h
    unfold make_syzygy_move at h
    dsimp only at h
    split_ifs at h <;> try simp at h
    all_goals (
      obtain ⟨-, h2, -, h4, h5⟩ := h
      subst h2; subst h4; subst h5
      decide)
  · intro cfg ctx entries ms outc d od rs h
    unfold make_gaviota_move at h
    dsimp only at h
    split_ifs at h <;> try simp at h
    all_goals (
      obtain ⟨-, h2, -, h4, h5⟩ := h
      subst h2; subst h4; subst h5
      decide)
  · intro cfg ctx response isRep mv outc d dtm od rs h
    rcases response with _ | resp
    · unfold make_egtb_move at h
      dsimp only at h
      split_ifs at h <;> simp at h
    · rcases hm : resp.moves with _ | ⟨top, restm⟩
      · unfold make_egtb_move at h
        dsimp only at h
        rw [hm] at h
        dsimp only at h
        split_ifs at h <;> simp at h
      · unfold make_egtb_move at h
        dsimp only at h
        rw [hm] at h
        dsimp only at h
        split_ifs at h <;> try simp at h
        all_goals (
          obtain ⟨-, h2, -, -, h4, h5⟩ := h
          subst h2
          refine ⟨?_, ?_⟩
          · rw [← h4]
            simp
          · rw [← h5]
            simp)

/-- Witness for C2: a concrete Syzygy run ending in class 0 (draw), whose
flags are (offer_draw, resign) = (true, false). -/
theorem tablebase_draw_resign_flags_witness :
    (true = true ∧ false = false) ∧
    make_syzygy_move ⟨true, true, 7⟩ ⟨true, 100000, 100000, 10, 10, true, "chess", 5⟩
        [⟨0, true, 0, 5⟩] = some ([0], "draw", 0, true, false) :=
  ⟨(tablebase_draw_resign_flags.1 ⟨true, true, 7⟩
      ⟨true, 100000, 100000, 10, 10, true, "chess", 5⟩ [⟨0, true, 0, 5⟩]
      [0] "draw" 0 true false (by decide)).1 rfl,
   by decide⟩

/-- C2 counterexample: a Syzygy run whose best class is -1 (blessed loss)
returns `offer_draw = true` — not "neither flag" as the claim states for
classes other than 0 and -2. -/
theorem syzygy_blessed_loss_offers_draw :
    make_syzygy_move ⟨true, true, 7⟩ ⟨true, 100000, 100000, 10, 10, true, "chess", 5⟩
        [⟨0, true, 150, 4⟩] = some ([0], "blessed loss", -150, true, false) ∧
    make_syzygy_move ⟨true, true, 7⟩ ⟨true, 100000, 100000, 10, 10, true, "chess", 5⟩
        [⟨0, true, 150, 4⟩] ≠ some ([0], "blessed loss", -150, false, false) := by
  exact ⟨by decide, by decide⟩

/-- C10: whenever the best outcome class over the scanned legal moves is
+1 (cursed win) or -1 (blessed loss), `_make_gaviota_move` returns no move
at all, and `make_move` with no Gaviota result falls through to a later
source. -/
theorem gaviota_no_move_on_cursed_classes (cfg : GaviotaConfig) (ctx : GameCtx)
    (entries : List GaviotaEntry)
    (hw : (selFold (entries.map gaviotaScore)).wdl = 1 ∨
          (selFold (entries.map gaviotaScore)).wdl = -1) :
    make_gaviota_move cfg ctx entries = none ∧
    (∀ st syz eg em dr rs,
      (make_move st none none none none none syz eg em dr rs).source ≠ Source.gaviota) := by
  constructor
  · unfold make_gaviota_move
    dsimp only
    rcases hw with hw | hw <;> split_ifs <;> first | rfl | omega
  · intro st syz eg em dr rs
    unfold make_move
    rcases syz with _ | ⟨⟨m6, od6, rs6⟩⟩ <;> rcases eg with _ | ⟨⟨m7, od7, rs7⟩⟩ <;>
      simp [mm_finish]

/-- Witness for C10: a single legal move probing to DTM 101 at halfmove
clock 0 classifies as +1 (cursed win) and the source yields no move. -/
theorem gaviota_no_move_on_cursed_classes_witness :
    ((selFold ([⟨0, false, true, -101, 0⟩].map gaviotaScore)).wdl = 1 ∨
     (selFold ([⟨0, false, true, -101, 0⟩].map gaviotaScore)).wdl = -1) ∧
    make_gaviota_move ⟨true, 7⟩ ⟨true, 100000, 100000, 10, 10, true, "chess", 3⟩
      [⟨0, false, true, -101, 0⟩] = none :=
  ⟨Or.inl (by decide),
   (gaviota_no_move_on_cursed_classes ⟨true, 7⟩
     ⟨true, 100000, 100000, 10, 10, true, "chess", 3⟩
     [⟨0, false, true, -101, 0⟩] (Or.inl (by decide))).1⟩

/-- C6: in the Syzygy selector, a move whose resulting halfmove clock is 0
compares with the probed (negated) DTZ biased by -10000 when winning and
+10000 when losing while its reported distance stays unbiased; with a
nonzero clock both coincide; and the distance reported by the scan is the
unbiased probed value of one of the scanned moves. -/
theorem syzygy_dtz_bias (e : SyzygyEntry) (entries : List SyzygyEntry) :
    (e.halfmove_clock = 0 → 0 < value_to_wdl (-e.probe_dtz) (e.halfmove_clock : Int) →
      (syzygyScore e).dist = -e.probe_dtz - 10000 ∧ (syzygyScore e).real = -e.probe_dtz) ∧
    (e.halfmove_clock = 0 → value_to_wdl (-e.probe_dtz) (e.halfmove_clock : Int) < 0 →
      (syzygyScore e).dist = -e.probe_dtz + 10000 ∧ (syzygyScore e).real = -e.probe_dtz) ∧
    (e.halfmove_clock ≠ 0 →
      (syzygyScore e).dist = -e.probe_dtz ∧ (syzygyScore e).real = -e.probe_dtz) ∧
    (entries ≠ [] →
      ∃ w ∈ entries, (selFold (entries.map syzygyScore)).real = -w.probe_dtz) := by
  refine ⟨?_, ?_, ?_, ?_⟩
  · intro h0 hw
    simp only [syzygyScore]
    rw [if_pos h0, if_neg (by omega), if_pos hw]
    exact ⟨rfl, trivial⟩
  · intro h0 hw
    simp only [syzygyScore]
    rw [if_pos h0, if_pos hw]
    exact ⟨rfl, trivial⟩
  · intro h0
    simp only [syzygyScore]
    rw [if_neg h0]
    exact ⟨rfl, trivial⟩
  · intro hne
    have h := selInv_selFold (entries.map syzygyScore) (by simpa using hne)
    obtain ⟨sm, hsm, -, -, hreal⟩ := h.mem
    obtain ⟨w, hw, rfl⟩ := List.mem_map.mp hsm
    exact ⟨w, hw, by rw [← hreal]; rfl⟩

/-- Witness for C6: a winning clock-reset move (probe -5, clock 0) has
comparison distance 5 - 10000 and reported distance 5; the scan over that
single move reports the unbiased 5. -/
theorem syzygy_dtz_bias_witness :
    ((syzygyScore ⟨0, true, -5, 0⟩).dist = -(-5 : Int) - 10000 ∧
     (syzygyScore ⟨0, true, -5, 0⟩).real = -(-5 : Int)) ∧
    ∃ w ∈ [(⟨0, true, -5, 0⟩ : SyzygyEntry)],
      (selFold ([(⟨0, true, -5, 0⟩ : SyzygyEntry)].map syzygyScore)).real = -w.probe_dtz :=
  ⟨(syzygy_dtz_bias ⟨0, true, -5, 0⟩ []).1 rfl (by decide),
   (syzygy_dtz_bias ⟨0, true, -5, 0⟩ [⟨0, true, -5, 0⟩]).2.2.2 (by simp)⟩

/-- C8 (amended): an engine move offers a draw iff draw-offering is
enabled, the move number is at least (not strictly above) the configured
minimum game length, the window is full, and every score has absolute
value at most (not strictly below) the threshold; the claim's concrete
window examples hold as stated. -/
theorem is_drawish_amended :
    (∀ de fm mgl cm scores ms,
      is_drawish de fm mgl cm scores ms = true ↔
        (de = true ∧ mgl ≤ fm ∧ cm ≤ scores.length ∧ ∀ sc ∈ scores, |sc| ≤ ms)) ∧
    is_drawish true 30 1 3 [10, -20, 30] 50 = true ∧
    is_drawish true 30 1 3 [10, -20, 60] 50 = false ∧
    (∀ de fm mgl scores ms, scores.length < 3 →
      is_drawish de fm mgl 3 scores ms = false) := by
  refine ⟨?_, by decide, by decide, ?_⟩
  · intro de fm mgl cm scores ms
    unfold is_drawish
    cases de
    · simp
    · simp only [Bool.not_true, Bool.false_eq_true, if_false]
      by_cases h1 : fm < mgl
      · rw [if_pos (by simp [h1])]
        simp only [Bool.false_eq_true, false_iff, eq_self_iff_true, true_and]
        rintro ⟨hx, -, -⟩
        omega
      · by_cases h2 : scores.length < cm
        · rw [if_pos (by simp [h2])]
          simp only [Bool.false_eq_true, false_iff, eq_self_iff_true, true_and]
          rintro ⟨-, hx, -⟩
          omega
        · rw [if_neg (by simp [h1, h2])]
          simp only [Bool.not_eq_true', List.any_eq_false, decide_eq_true_eq, not_lt,
            eq_self_iff_true, true_and]
          constructor
          · intro hall
            exact ⟨le_of_not_lt h1, le_of_not_lt h2, hall⟩
          · intro hall
            exact hall.2.2
  · intro de fm mgl scores ms hlen
    unfold is_drawish
    cases de
    · rfl
    · simp only [Bool.not_true, Bool.false_eq_true, if_false]
      rw [if_pos (by simp [hlen])]

/-- Witness for C8: a window with a single entry (fewer than the capacity
of 3) never offers a draw. -/
theorem is_drawish_amended_witness :
    ([(0 : Int)].length < 3) ∧ is_drawish true 30 1 3 [0] 50 = false :=
  ⟨by decide, is_drawish_amended.2.2.2 true 30 1 [0] 50 (by decide)⟩

/-- C8 counterexample: with minimum game length 5, capacity 3 and
threshold 50, the move number 5 (which does not exceed 5) and the window
[50, 50, 50] (scores not strictly below 50) still offer a draw, refuting
the claim's strict "exceeds"/"below" conditions. -/
theorem is_drawish_boundary :
    is_drawish true 5 5 3 [50, 50, 50] 50 = true ∧ ¬(5 > 5) ∧ ¬(|(50 : Int)| < 50) := by
  exact ⟨by decide, by decide, by decide⟩

/-- C9 counterexample: the claim's formula over seconds yields
max(600/60×1.0, 1000) = 1000 ms for a 600-second game, contradicting the
claim's own concrete value of 10000 ms; the code produces 10000 ms because
its `initial_time` is the event's clock value in milliseconds. -/
theorem move_overhead_seconds_formula_cex :
    spec_move_overhead 600 1 = 1000 ∧ (1000 : ℚ) ≠ 10000 ∧
    get_move_overhead 600000 1 = 10000 := by
  refine ⟨?_, by norm_num, ?_⟩
  · unfold spec_move_overhead
    rw [show (600 : ℚ) / 60 * 1 = 10 by norm_num]
    rw [max_eq_right (by norm_num : (10 : ℚ) ≤ 1000)]
  · unfold get_move_overhead pyInt
    rw [show (600000 : ℚ) / 60 * 1 = 10000 by norm_num]
    rw [if_neg (by norm_num : ¬(10000 : ℚ) < 0)]
    rw [show ⌊(10000 : ℚ)⌋ = 10000 by norm_num]
    rw [max_eq_left (by norm_num : (1000 : ℤ) ≤ 10000)]

/-- C9 (amended): the overhead is max(int(initial_time_ms / 60 ×
multiplier), 1000) with the initial time taken in milliseconds, i.e. for a
game of `sec` seconds max(int(sec × 1000 / 60 × multiplier), 1000);
concretely 600 seconds (600000 ms) with multiplier 1.0 give 10000 ms. -/
theorem move_overhead_amended (sec mult : ℚ) :
    get_move_overhead (1000 * sec) mult = max (pyInt (sec * 1000 / 60 * mult)) 1000 ∧
    get_move_overhead 600000 1 = 10000 := by
  constructor
  · unfold get_move_overhead
    rw [show 1000 * sec / 60 * mult = sec * 1000 / 60 * mult by ring]
  · unfold get_move_overhead pyInt
    rw [show (600000 : ℚ) / 60 * 1 = 10000 by norm_num]
    rw [if_neg (by norm_num : ¬(10000 : ℚ) < 0)]
    rw [show ⌊(10000 : ℚ)⌋ = 10000 by norm_num]
    rw [max_eq_left (by norm_num : (1000 : ℤ) ≤ 10000)]

theorem not_decide_one_lt (n : Nat) : (!decide (1 < n)) = decide (n ≤ 1) := by
  by_cases h : 1 < n
  · rw [decide_eq_true h, decide_eq_false (by omega : ¬n ≤ 1)]
    rfl
  · rw [decide_eq_false h, decide_eq_true (by omega : n ≤ 1)]
    rfl

/-- C3 (amended): `make_move` pushes the chosen move onto the game
history.  A fresh pondering search starts exactly when pondering is still
enabled and the move came from the book, explorer, cloud, community
database or online EGTB, or from the engine within the first two plies;
a Gaviota- or Syzygy-sourced move first disables pondering permanently
(via `stop_pondering`), so no fresh search follows it, and an
engine-sourced move past the first two plies starts none. -/
theorem make_move_push_and_ponder (st : MMState)
    (bk ex cl cd : Option Nat) (gv sz eg : Option (Nat × Bool × Bool))
    (em : Nat) (dr rs : Bool) :
    (make_move st bk ex cl cd gv sz eg em dr rs).state.stack =
      st.stack ++ [(make_move st bk ex cl cd gv sz eg em dr rs).move] ∧
    (make_move st bk ex cl cd gv sz eg em dr rs).ponder_started =
      (if (make_move st bk ex cl cd gv sz eg em dr rs).source = Source.gaviota ∨
          (make_move st bk ex cl cd gv sz eg em dr rs).source = Source.syzygy then false
       else if (make_move st bk ex cl cd gv sz eg em dr rs).source = Source.engine then
         decide (st.stack.length ≤ 1) && st.ponder_enabled
       else st.ponder_enabled) ∧
    (make_move st bk ex cl cd gv sz eg em dr rs).state.ponder_enabled =
      (if (make_move st bk ex cl cd gv sz eg em dr rs).source = Source.gaviota ∨
          (make_move st bk ex cl cd gv sz eg em dr rs).source = Source.syzygy then false
       else st.ponder_enabled) := by
  unfold make_move
  rcases bk with _ | m1 <;> rcases ex with _ | m2 <;> rcases cl with _ | m3 <;>
    rcases cd with _ | m4 <;> rcases gv with _ | ⟨⟨m5, od5, rs5⟩⟩ <;>
    rcases sz with _ | ⟨⟨m6, od6, rs6⟩⟩ <;> rcases eg with _ | ⟨⟨m7, od7, rs7⟩⟩ <;>
    refine ⟨?_, ?_, ?_⟩ <;>
    simp [mm_finish, stop_pondering_flag, stop_pondering_stack, not_decide_one_lt]

/-- C3 counterexample: a Gaviota-sourced move (a non-engine source) with
pondering enabled does not start a fresh pondering search — the branch
first calls `stop_pondering`, which clears the flag permanently. -/
theorem gaviota_move_starts_no_pondering :
    (make_move ⟨[1, 2, 3], true, true, true⟩ none none none none (some (9, false, false))
        none none 0 false false).source = Source.gaviota ∧
    Source.gaviota ≠ Source.engine ∧
    (make_move ⟨[1, 2, 3], true, true, true⟩ none none none none (some (9, false, false))
        none none 0 false false).ponder_started = false := by
  exact ⟨by decide, by decide, by decide⟩

end BotLi
